import Mathlib

/-!
Verification development for the chat backend (`backend/app`).

The embedding below is a shallow model of the Python sources:

* `app/models/message.py`, `app/models/conversation.py` — durable rows
  (`Message`, `Conversation`), held in a `DB` state whose clock `now`
  supplies the server-assigned write timestamps.
* `app/services/temporary_sessions.py` — the in-memory ephemeral session
  store (`TempStore`), with `create_temporary_session`,
  `add_message_to_session`, `get_session_messages`, `delete_session`,
  `get_active_sessions_count`.
* `app/services/openrouter.py` — the upstream provider client; the network
  is modelled by an oracle value (`UpstreamOutcome` / `StreamOutcome`) and
  `chat_completion` / `chat_completion_stream` map it to exactly what the
  Python code returns or yields, including the Turkish user-facing error
  strings.
* `app/routers/chat.py` — `send_message` (POST /api/chat/send),
  `send_message_stream` (POST /api/chat/stream, split into `streamSetup`
  and the `generate_stream` commit stage exactly as the code splits it),
  and `edit_message` (PUT /api/chat/messages/id).

Python truthiness on optional strings and integers (`if msg.image_url:`,
`if request.conversation_id:`) is modelled by `truthy` / `intTruthy`.
Reads that the code performs with `ORDER BY timestamp ASC` (and the
conversations router performs with Python `sorted`, a stable sort) are
modelled with `List.insertionSort`, which is stable.
-/

namespace ChatApp

/-- Python truthiness of an optional string: `None` and `""` are falsy. -/
def truthy : Option String → Bool
  | none => false
  | some s => !s.isEmpty

/-- Python truthiness of an optional int: `None` and `0` are falsy. -/
def intTruthy : Option Int → Bool
  | none => false
  | some i => i != 0

/-- Durable message row (`app/models/message.py`). `timestamp` is the
server-assigned write time used as the ordering and truncation key. -/
structure Message where
  id : Nat
  conversation_id : Int
  role : String
  content : String
  model_name : Option String
  image_url : Option String
  timestamp : Nat
deriving DecidableEq, Repr

/-- Durable conversation row (`app/models/conversation.py`). -/
structure Conversation where
  id : Int
  title : String
  model_name : String
deriving DecidableEq, Repr

/-- The durable store: tables plus id/clock counters.  Inserts append a row
stamped with `now` and advance the clock, matching the monotone
server-default timestamps. -/
structure DB where
  conversations : List Conversation
  messages : List Message
  nextConvId : Int
  nextMsgId : Nat
  now : Nat
deriving DecidableEq, Repr

def initialDB : DB :=
  { conversations := [], messages := [], nextConvId := 1, nextMsgId := 1, now := 0 }

def findConversation (db : DB) (cid : Int) : Option Conversation :=
  db.conversations.find? (fun c => c.id == cid)

def findMessage (db : DB) (mid : Nat) : Option Message :=
  db.messages.find? (fun m => m.id == mid)

def insertConversation (db : DB) (title model : String) : Conversation × DB :=
  let c : Conversation := { id := db.nextConvId, title := title, model_name := model }
  (c, { db with conversations := db.conversations ++ [c], nextConvId := db.nextConvId + 1 })

def insertNewMessage (db : DB) (cid : Int) (role content : String)
    (model image : Option String) : DB :=
  { db with
      messages := db.messages ++
        [{ id := db.nextMsgId, conversation_id := cid, role := role, content := content,
           model_name := model, image_url := image, timestamp := db.now }],
      nextMsgId := db.nextMsgId + 1,
      now := db.now + 1 }

/-- Ordering relation used by every history read: ascending timestamp. -/
def tsLe (a b : Message) : Prop := a.timestamp ≤ b.timestamp

instance : DecidableRel tsLe := fun a b => Nat.decLe a.timestamp b.timestamp

instance : IsTotal Message tsLe := ⟨fun a b => Nat.le_total a.timestamp b.timestamp⟩

instance : IsTrans Message tsLe := ⟨fun _ _ _ h1 h2 => Nat.le_trans h1 h2⟩

/-- The rows of one conversation, in table (insertion) order. -/
def conversationMessages (db : DB) (cid : Int) : List Message :=
  db.messages.filter (fun m => m.conversation_id == cid)

/-- History read: `SELECT .. WHERE conversation_id = cid ORDER BY timestamp ASC`
(chat.py) and `sorted(conversation.messages, key=lambda m: m.timestamp)`
(conversations.py).  Both are stable by-timestamp sorts. -/
def conversationHistory (db : DB) (cid : Int) : List Message :=
  List.insertionSort tsLe (conversationMessages db cid)

/-- One turn record of an ephemeral session: the dict built by
`add_message_to_session`.  Optional keys that the Python code only sets
when truthy are `none` when absent. -/
structure TurnRec where
  role : String
  content : String
  timestamp : Nat
  model_name : Option String
  image_url : Option String
deriving DecidableEq, Repr

/-- The in-process ephemeral store (`temporary_sessions.py`):
`_temporary_sessions` as an association list and the `_next_session_id`
counter, plus a clock for the append timestamps. -/
structure TempStore where
  sessions : List (Int × List TurnRec)
  nextSessionId : Int
  now : Nat
deriving DecidableEq, Repr

def initialTempStore : TempStore := { sessions := [], nextSessionId := -1, now := 0 }

def lookupSession (ts : TempStore) (sid : Int) : Option (List TurnRec) :=
  (ts.sessions.find? (fun p => p.1 == sid)).map Prod.snd

def setSession : List (Int × List TurnRec) → Int → List TurnRec → List (Int × List TurnRec)
  | [], sid, l => [(sid, l)]
  | p :: ps, sid, l => if p.1 == sid then (sid, l) :: ps else p :: setSession ps sid l

/-- `create_temporary_session()`: returns the current (negative) counter,
decrements it, and installs an empty turn list under the returned id. -/
def create_temporary_session (ts : TempStore) : Int × TempStore :=
  let sid := ts.nextSessionId
  (sid, { ts with
            nextSessionId := ts.nextSessionId - 1,
            sessions := setSession ts.sessions sid [] })

/-- `add_message_to_session(...)`: lazily creates the session, then appends
the message dict; `model_name` / `image_url` keys are only set when truthy. -/
def add_message_to_session (ts : TempStore) (sid : Int) (role content : String)
    (model_name image_url : Option String) : TempStore :=
  let cur := (lookupSession ts sid).getD []
  let m : TurnRec :=
    { role := role, content := content, timestamp := ts.now,
      model_name := if truthy model_name then model_name else none,
      image_url := if truthy image_url then image_url else none }
  { ts with sessions := setSession ts.sessions sid (cur ++ [m]), now := ts.now + 1 }

/-- `get_session_messages(...)`: the turn list, or `[]` for an unknown id. -/
def get_session_messages (ts : TempStore) (sid : Int) : List TurnRec :=
  (lookupSession ts sid).getD []

/-- `delete_session(...)`. -/
def delete_session (ts : TempStore) (sid : Int) : TempStore :=
  { ts with sessions := ts.sessions.filter (fun p => p.1 != sid) }

/-- `get_active_sessions_count()`. -/
def get_active_sessions_count (ts : TempStore) : Nat := ts.sessions.length

/-- One part of a multimodal provider message. -/
inductive ContentPart
  | textPart (text : String)
  | imagePart (url : String)
deriving DecidableEq, Repr

/-- Provider message content: plain string or a list of content parts. -/
inductive MsgContent
  | str (s : String)
  | parts (l : List ContentPart)
deriving DecidableEq, Repr

/-- A provider-format message as built by the history-assembly loops in
`chat.py`. -/
structure ProviderMessage where
  role : String
  content : MsgContent
deriving DecidableEq, Repr

/-- History assembly of one durable row (chat.py loops at /send and /stream):
`if msg.image_url:` yields the two-part multimodal block, else `{role, content}`. -/
def messageToProvider (m : Message) : ProviderMessage :=
  if truthy m.image_url then
    { role := m.role,
      content := .parts [.textPart m.content, .imagePart (m.image_url.getD "")] }
  else
    { role := m.role, content := .str m.content }

/-- History assembly of one ephemeral turn dict (`msg.get("image_url")`). -/
def turnToProvider (t : TurnRec) : ProviderMessage :=
  if truthy t.image_url then
    { role := t.role,
      content := .parts [.textPart t.content, .imagePart (t.image_url.getD "")] }
  else
    { role := t.role, content := .str t.content }

def assembleHistoryDB (msgs : List Message) : List ProviderMessage :=
  msgs.map messageToProvider

def assembleHistoryTemp (recs : List TurnRec) : List ProviderMessage :=
  recs.map turnToProvider

/-- Outcome of the non-streaming upstream call, as seen by
`OpenRouterService.chat_completion`: a parsed success body (of which the
code only reads `choices[0].message.content`), an HTTP status error, or a
transport-level error. -/
inductive UpstreamOutcome
  | success (content : String)
  | httpStatusError (status : Nat)
  | transportError (details : String)
deriving DecidableEq, Repr

/-- What `chat_completion` hands back to the router: either the parsed
result (`error = false`, `content` as extracted by the router) or the
user-friendly error dict (`error = true`, `message`). -/
structure ORResponse where
  error : Bool
  message : String
  content : String
deriving DecidableEq, Repr

/-- The per-status user message table of `chat_completion`. -/
def statusUserMessage (status : Nat) : String :=
  if status == 429 then
    "Çok fazla istek gönderildi. Lütfen 1-2 dakika bekleyip tekrar deneyin."
  else if status == 404 then
    "Model bulunamadı. Lütfen farklı bir model seçin."
  else if status == 401 then
    "API anahtarı geçersiz. Lütfen backend .env dosyasını kontrol edin."
  else if status == 503 then
    "AI servisi şu an kullanılamıyor. Lütfen daha sonra tekrar deneyin."
  else
    "Bir hata oluştu (Kod: " ++ toString status ++ "). Lütfen tekrar deneyin."

/-- `OpenRouterService.chat_completion`: success returns the parsed body;
HTTP status errors and transport errors are swallowed and returned as an
error dict with a user-friendly message. -/
def chat_completion (up : UpstreamOutcome) : ORResponse :=
  match up with
  | .success content => { error := false, message := "", content := content }
  | .httpStatusError status =>
      { error := true, message := statusUserMessage status, content := "" }
  | .transportError _ =>
      { error := true,
        message := "Bağlantı hatası. İnternet bağlantınızı kontrol edin ve tekrar deneyin.",
        content := "" }

/-- A transport or HTTP error terminating the upstream stream. -/
inductive StreamError
  | httpStatus (status : Nat)
  | transport (details : String)
deriving DecidableEq, Repr

/-- Outcome of the upstream streaming call: the sequence of delta contents
followed either by a normal end-of-stream or by an error. -/
inductive StreamOutcome
  | success (deltas : List String)
  | failAfter (deltas : List String) (e : StreamError)
deriving DecidableEq, Repr

/-- The per-error user message yielded by `chat_completion_stream`. -/
def streamErrorMessage : StreamError → String
  | .httpStatus status =>
    if status == 429 then
      "⏳ Çok fazla istek gönderildi.\n\nLütfen 1-2 dakika bekleyip tekrar deneyin.\n\nÜcretsiz API kullanımında istek limiti vardır."
    else if status == 404 then
      "❌ Model bulunamadı veya artık kullanılmıyor.\n\nLütfen model dropdown\x27ından farklı bir model seçin."
    else if status == 401 then
      "🔑 API anahtarı geçersiz.\n\nLütfen backend/.env dosyasındaki OPENROUTER_API_KEY\x27i kontrol edin."
    else if status == 503 then
      "🔧 AI servisi şu an kullanılamıyor.\n\nLütfen birkaç dakika sonra tekrar deneyin."
    else
      "❌ Beklenmeyen bir hata oluştu (HTTP " ++ toString status ++ ").\n\nLütfen tekrar deneyin veya farklı bir model seçin."
  | .transport _ =>
    "❌ Bağlantı hatası oluştu.\n\nİnternet bağlantınızı kontrol edin ve tekrar deneyin."

/-- `OpenRouterService.chat_completion_stream`: on success it yields every
non-empty delta content; on a transport/HTTP error it yields the deltas
received so far followed by exactly one user-friendly error fragment, then
terminates (the exception is swallowed). -/
def chat_completion_stream (up : StreamOutcome) : List String :=
  match up with
  | .success deltas => deltas.filter (fun s => !s.isEmpty)
  | .failAfter deltas e => deltas.filter (fun s => !s.isEmpty) ++ [streamErrorMessage e]

/-- The request body of /api/chat/send and /api/chat/stream, after pydantic
validation. -/
structure ChatRequest where
  conversation_id : Option Int
  model : String
  message : String
  image_url : Option String
  is_temporary : Bool
  conversation_title : Option String
deriving DecidableEq, Repr

/-- The exception taxonomy of `app/exceptions.py`. -/
inductive ApiError
  | validation (detail : String)
  | conversationNotFound (id : Int)
  | messageNotFound (id : Nat)
  | openRouterAPI (detail : String)
deriving DecidableEq, Repr

/-- HTTP status of each exception class (`app/exceptions.py`). -/
def ApiError.statusCode : ApiError → Nat
  | .validation _ => 400
  | .conversationNotFound _ => 404
  | .messageNotFound _ => 404
  | .openRouterAPI _ => 503

structure ChatResponse where
  conversation_id : Int
  message : String
  model : String
  timestamp : Nat
deriving DecidableEq, Repr

/-- The validation message of the temporary-mode rejection in /send. -/
def streamHint : String :=
  "Geçici sohbet için /api/chat/stream endpoint\x27ini kullanın"

/-- Step 1 of /send and of the durable branch of /stream: look up the
conversation if `request.conversation_id` is truthy (404 when absent),
otherwise create a fresh one with the default title rule
`request.conversation_title or "Yeni Sohbet"`. -/
def resolveConversation (req : ChatRequest) (db : DB) : Except ApiError (Conversation × DB) :=
  if intTruthy req.conversation_id then
    match findConversation db (req.conversation_id.getD 0) with
    | some c => .ok (c, db)
    | none => .error (.conversationNotFound (req.conversation_id.getD 0))
  else
    .ok (insertConversation db
          (if truthy req.conversation_title then req.conversation_title.getD "" else "Yeni Sohbet")
          req.model)

/-- POST /api/chat/send (`send_message` in chat.py).  The returned `DB` is
the durable state after the handler finishes or raises: commits already
made before an exception stay committed. -/
def send_message (req : ChatRequest) (db : DB) (up : UpstreamOutcome) :
    DB × Except ApiError ChatResponse :=
  if req.is_temporary then
    (db, .error (.validation streamHint))
  else
    match resolveConversation req db with
    | .error e => (db, .error e)
    | .ok (conv, db1) =>
      let db2 := insertNewMessage db1 conv.id "user" req.message none req.image_url
      let _chatHistory := assembleHistoryDB (conversationHistory db2 conv.id)
      let ai := chat_completion up
      if ai.error then
        (db2, .error (.openRouterAPI ai.message))
      else if ai.content == "" then
        (db2, .error (.openRouterAPI "AI\x27dan boş cevap alındı"))
      else
        let db3 := insertNewMessage db2 conv.id "assistant" ai.content (some req.model) none
        (db3, .ok { conversation_id := conv.id, message := ai.content,
                    model := req.model, timestamp := db2.now })

/-- Combined application state seen by the streaming endpoint. -/
structure AppState where
  db : DB
  temp : TempStore
deriving DecidableEq, Repr

/-- Temporary-mode session routing of /stream:
`if request.conversation_id and request.conversation_id < 0:` reuse it,
else create a fresh temporary session. -/
def tempRoute (req : ChatRequest) (temp : TempStore) : Int × TempStore :=
  if intTruthy req.conversation_id && decide (req.conversation_id.getD 0 < 0) then
    (req.conversation_id.getD 0, temp)
  else
    create_temporary_session temp

/-- Everything /stream does before its `generate_stream` generator runs:
route to a store, record the user turn there, and assemble the provider
history.  Returns the updated state, the resolved session id (the
`X-Conversation-Id` header value) and the assembled history. -/
def streamSetup (req : ChatRequest) (st : AppState) :
    Except ApiError (AppState × Int × List ProviderMessage) :=
  if req.is_temporary then
    let pr := tempRoute req (st.temp)
    let temp2 := add_message_to_session pr.2 pr.1 "user" req.message none req.image_url
    .ok ({ st with temp := temp2 }, pr.1,
         assembleHistoryTemp (get_session_messages temp2 pr.1))
  else
    match resolveConversation req st.db with
    | .error e => .error e
    | .ok (conv, db1) =>
      let db2 := insertNewMessage db1 conv.id "user" req.message none req.image_url
      .ok ({ st with db := db2 }, conv.id,
           assembleHistoryDB (conversationHistory db2 conv.id))

/-- The post-stream commit of `generate_stream`: the accumulated text is
unconditionally recorded as an assistant turn in the store the turn was
routed to. -/
def commitAssistant (req : ChatRequest) (st : AppState) (sid : Int) (full : String) :
    AppState :=
  if req.is_temporary then
    { st with temp := add_message_to_session st.temp sid "assistant" full (some req.model) none }
  else
    { st with db := insertNewMessage st.db sid "assistant" full (some req.model) none }

/-- The `generate_stream` generator: forward every upstream chunk, then
commit the concatenation as the assistant turn. -/
def generate_stream (req : ChatRequest) (st : AppState) (sid : Int) (up : StreamOutcome) :
    List String × AppState :=
  let chunks := chat_completion_stream up
  (chunks, commitAssistant req st sid (String.join chunks))

/-- POST /api/chat/stream (`send_message_stream` in chat.py).  The `.ok`
payload is the fully drained caller-visible chunk sequence together with
the `X-Conversation-Id` header value. -/
def send_message_stream (req : ChatRequest) (st : AppState) (up : StreamOutcome) :
    AppState × Except ApiError (List String × Int) :=
  match streamSetup req st with
  | .error e => (st, .error e)
  | .ok (st1, sid, _hist) =>
    let r := generate_stream req st1 sid up
    (r.2, .ok (r.1, sid))

/-- The validation message of the role check in `edit_message`. -/
def editValidationMsg : String := "Sadece kullanıcı mesajları düzenlenebilir"

structure EditResponse where
  id : Nat
  content : String
  conversation_id : Int
  deleted_count : Nat
  timestamp : Nat
deriving DecidableEq, Repr

/-- PUT /api/chat/messages/id (`edit_message` in chat.py): locate the
message (404 if absent), reject non-user roles (400), otherwise overwrite
the content, delete every message of the same conversation with a strictly
greater timestamp, and report the deletion count. -/
def edit_message (db : DB) (mid : Nat) (content : String) :
    DB × Except ApiError EditResponse :=
  match findMessage db mid with
  | none => (db, .error (.messageNotFound mid))
  | some msg =>
    if msg.role != "user" then
      (db, .error (.validation editValidationMsg))
    else
      let subsequent := db.messages.filter
        (fun m => m.conversation_id == msg.conversation_id
          && decide (msg.timestamp < m.timestamp))
      let newMessages :=
        (db.messages.map (fun m => if m.id == mid then { m with content := content } else m)).filter
          (fun m => !(m.conversation_id == msg.conversation_id
            && decide (msg.timestamp < m.timestamp)))
      ({ db with messages := newMessages },
       .ok { id := mid, content := content, conversation_id := msg.conversation_id,
             deleted_count := subsequent.length, timestamp := msg.timestamp })

/-! ### Basic lemmas about the ephemeral session store -/

theorem lookup_setSession (s : List (Int × List TurnRec)) (sid : Int) (l : List TurnRec) :
    (List.find? (fun p => p.1 == sid) (setSession s sid l)).map Prod.snd = some l := by
  induction s with
  | nil => simp [setSession]
  | cons p ps ih =>
    by_cases h : p.1 = sid
    · simp [setSession, h]
    · simp [setSession, h, ih]

theorem get_add (ts : TempStore) (sid : Int) (r c : String) (mo im : Option String) :
    get_session_messages (add_message_to_session ts sid r c mo im) sid
      = get_session_messages ts sid ++
        [{ role := r, content := c, timestamp := ts.now,
           model_name := if truthy mo then mo else none,
           image_url := if truthy im then im else none }] := by
  unfold get_session_messages add_message_to_session lookupSession
  simp [lookup_setSession]

theorem add_now (ts : TempStore) (sid : Int) (r c : String) (mo im : Option String) :
    (add_message_to_session ts sid r c mo im).now = ts.now + 1 := rfl

theorem get_create (ts : TempStore) :
    get_session_messages (create_temporary_session ts).2 (create_temporary_session ts).1
      = [] := by
  unfold get_session_messages create_temporary_session lookupSession
  simp [lookup_setSession]

/-! ### Operation sequences against the ephemeral store (for C4) -/

/-- One call against the ephemeral session store API. -/
inductive TempOp
  | createOp
  | appendOp (sid : Int) (role content : String) (model image : Option String)
  | deleteOp (sid : Int)
deriving DecidableEq, Repr

def applyTempOp (ts : TempStore) : TempOp → TempStore × List Int
  | .createOp =>
    let r := create_temporary_session ts
    (r.2, [r.1])
  | .appendOp sid role content model image =>
    (add_message_to_session ts sid role content model image, [])
  | .deleteOp sid => (delete_session ts sid, [])

/-- Run a call sequence, collecting the ids returned by `create` calls in
order. -/
def runTempOps (ts : TempStore) : List TempOp → TempStore × List Int
  | [] => (ts, [])
  | op :: ops =>
    let r1 := applyTempOp ts op
    let r2 := runTempOps r1.1 ops
    (r2.1, r1.2 ++ r2.2)

def countCreates : List TempOp → Nat
  | [] => 0
  | .createOp :: ops => countCreates ops + 1
  | .appendOp _ _ _ _ _ :: ops => countCreates ops
  | .deleteOp _ :: ops => countCreates ops

def expectedIds (start : Int) : Nat → List Int
  | 0 => []
  | n + 1 => start :: expectedIds (start - 1) n

theorem runTempOps_ids (ops : List TempOp) : ∀ ts : TempStore,
    (runTempOps ts ops).2 = expectedIds ts.nextSessionId (countCreates ops) := by
  induction ops with
  | nil => intro ts; rfl
  | cons op ops ih =>
    intro ts
    cases op with
    | createOp =>
      simp [runTempOps, applyTempOp, countCreates, expectedIds, ih, create_temporary_session]
    | appendOp sid role content model image =>
      simp [runTempOps, applyTempOp, countCreates, ih, add_message_to_session]
    | deleteOp sid =>
      simp [runTempOps, applyTempOp, countCreates, ih, delete_session]

theorem expectedIds_eq_map (n : Nat) : ∀ s : Int,
    expectedIds s n = (List.range n).map (fun (k : Nat) => s - (k : Int)) := by
  induction n with
  | zero => intro s; rfl
  | succ n ih =>
    intro s
    rw [List.range_succ_eq_map, List.map_cons, List.map_map]
    rw [expectedIds, ih]
    congr 1
    · simp
    · apply List.map_congr_left
      intro a _
      simp only [Function.comp_apply, Nat.succ_eq_add_one]
      push_cast
      ring

/-- C4: Ephemeral session ids are strictly decreasing negative integers that
never repeat within a process lifetime: over any call sequence against the
store starting from process start, the k-th `create()` call (1-indexed,
0-indexed as `k` in the `List.range` form below) returns `-(k+1)`, i.e.
`-1, -2, -3, …`; and every `create()` installs an empty turn list under the
id it returns. -/
theorem c4_session_ids (ops : List TempOp) (ts : TempStore) :
    (runTempOps initialTempStore ops).2
      = (List.range (countCreates ops)).map (fun (k : Nat) => -((k : Int) + 1))
    ∧ (create_temporary_session ts).1 = ts.nextSessionId
    ∧ get_session_messages (create_temporary_session ts).2 (create_temporary_session ts).1
        = [] := by
  refine ⟨?_, rfl, get_create ts⟩
  rw [runTempOps_ids, expectedIds_eq_map]
  apply List.map_congr_left
  intro a _
  show initialTempStore.nextSessionId - (a : Int) = -((a : Int) + 1)
  show (-1 : Int) - (a : Int) = -((a : Int) + 1)
  ring

/-! ### Append/read round trip on one ephemeral session (for C5) -/

/-- The caller-supplied part of one appended turn. -/
structure TurnInput where
  role : String
  content : String
  model_name : Option String
  image_url : Option String
deriving DecidableEq, Repr

/-- Append a sequence of turns to one session. -/
def addMany (ts : TempStore) (sid : Int) : List TurnInput → TempStore
  | [] => ts
  | t :: rest =>
    addMany (add_message_to_session ts sid t.role t.content t.model_name t.image_url) sid rest

/-- The turn records `add_message_to_session` builds for a sequence of
appends starting at clock value `now`. -/
def mkRecs (now : Nat) : List TurnInput → List TurnRec
  | [] => []
  | t :: rest =>
    { role := t.role, content := t.content, timestamp := now,
      model_name := if truthy t.model_name then t.model_name else none,
      image_url := if truthy t.image_url then t.image_url else none } :: mkRecs (now + 1) rest

/-- C5: for every session id and every sequence of appends to that id
(lazily creating the session if needed), `read` returns the previously
stored turns followed by the appended turns in append order; and for an id
never created or appended to (any id in the initial store), `read` returns
`[]` — it is a total function that never signals an error. -/
theorem c5_append_read :
    (∀ (ts : TempStore) (sid : Int) (L : List TurnInput),
        get_session_messages (addMany ts sid L) sid
          = get_session_messages ts sid ++ mkRecs ts.now L)
    ∧ ∀ sid : Int, get_session_messages initialTempStore sid = [] := by
  constructor
  · intro ts sid L
    induction L generalizing ts with
    | nil => simp [addMany, mkRecs]
    | cons t rest ih =>
      rw [addMany, ih, get_add, add_now]
      simp [mkRecs]
  · intro _; rfl

/-! ### History assembly round trip (for C6) -/

/-- C6: for every stored turn, in either store, the History Assembler maps a
turn without an image to `{role, content}` with the same role and text, and
a turn with a (non-empty, hence truthy) image reference to a two-part
content block holding a text part with the same text and an image part with
the same reference — stated as a store-then-assemble round trip through
`add_message_to_session` (ephemeral) and `insertNewMessage` (durable). -/
theorem c6_assembler_roundtrip :
    (∀ (ts : TempStore) (sid : Int) (role content : String) (model : Option String),
        (get_session_messages (add_message_to_session ts sid role content model none) sid).map
            turnToProvider
          = (get_session_messages ts sid).map turnToProvider
              ++ [{ role := role, content := .str content }])
    ∧ (∀ (ts : TempStore) (sid : Int) (role content : String) (model : Option String)
          (u : String), u ≠ "" →
        (get_session_messages (add_message_to_session ts sid role content model (some u)) sid).map
            turnToProvider
          = (get_session_messages ts sid).map turnToProvider
              ++ [{ role := role, content := .parts [.textPart content, .imagePart u] }])
    ∧ (∀ (db : DB) (cid : Int) (role content : String) (model : Option String),
        assembleHistoryDB (insertNewMessage db cid role content model none).messages
          = assembleHistoryDB db.messages ++ [{ role := role, content := .str content }])
    ∧ (∀ (db : DB) (cid : Int) (role content : String) (model : Option String) (u : String),
          u ≠ "" →
        assembleHistoryDB (insertNewMessage db cid role content model (some u)).messages
          = assembleHistoryDB db.messages
              ++ [{ role := role, content := .parts [.textPart content, .imagePart u] }]) := by
  refine ⟨?_, ?_, ?_, ?_⟩
  · intro ts sid role content model
    rw [get_add]
    simp [turnToProvider, truthy]
  · intro ts sid role content model u hu
    have hie : u.isEmpty = false :=
      Bool.eq_false_iff.mpr (fun h => hu ((String.isEmpty_iff u).mp h))
    rw [get_add]
    simp [turnToProvider, truthy, hie]
  · intro db cid role content model
    simp [assembleHistoryDB, insertNewMessage, messageToProvider, truthy]
  · intro db cid role content model u hu
    have hie : u.isEmpty = false :=
      Bool.eq_false_iff.mpr (fun h => hu ((String.isEmpty_iff u).mp h))
    simp [assembleHistoryDB, insertNewMessage, messageToProvider, truthy, hie]

/-- Witness for C6 at a concrete image-bearing input. -/
theorem c6_assembler_roundtrip_witness :
    (get_session_messages
        (add_message_to_session initialTempStore (-1) "user" "bak" none (some "http://x/a.png"))
        (-1)).map turnToProvider
      = [{ role := "user",
           content := .parts [.textPart "bak", .imagePart "http://x/a.png"] }]
    ∧ assembleHistoryDB (insertNewMessage initialDB 1 "user" "bak" none (some "http://x/a.png")).messages
      = [{ role := "user",
           content := .parts [.textPart "bak", .imagePart "http://x/a.png"] }] :=
  ⟨c6_assembler_roundtrip.2.1 initialTempStore (-1) "user" "bak" none "http://x/a.png"
      (by decide),
   c6_assembler_roundtrip.2.2.2 initialDB 1 "user" "bak" none "http://x/a.png" (by decide)⟩

/-! ### Durable-store invariant and history lemmas -/

theorem mem_of_getLast?_eq_some {α : Type _} : ∀ {l : List α} {a : α},
    l.getLast? = some a → a ∈ l
  | [x], a, h => by
    rw [List.getLast?_singleton] at h
    rw [Option.some_inj] at h
    subst h
    exact List.mem_singleton_self x
  | x :: y :: ys, a, h => by
    rw [List.getLast?_cons_cons] at h
    exact List.mem_cons_of_mem x (mem_of_getLast?_eq_some h)

/-- Invariant of the durable store maintained by the handlers: rows are in
timestamp order (server-default timestamps are monotone), every stored
timestamp is below the clock, and ids referenced by rows are below the
allocation counters. -/
def WF (db : DB) : Prop :=
  List.Sorted tsLe db.messages
  ∧ (∀ m ∈ db.messages, m.timestamp < db.now)
  ∧ (∀ m ∈ db.messages, m.conversation_id < db.nextConvId)
  ∧ (∀ c ∈ db.conversations, c.id < db.nextConvId)

theorem wf_initialDB : WF initialDB := by
  refine ⟨List.sorted_nil, ?_, ?_, ?_⟩ <;> intro x hx <;> cases hx

theorem filter_conv_insert (db : DB) (cid : Int) (role content : String)
    (mo im : Option String) :
    conversationMessages (insertNewMessage db cid role content mo im) cid
      = conversationMessages db cid ++
        [{ id := db.nextMsgId, conversation_id := cid, role := role, content := content,
           model_name := mo, image_url := im, timestamp := db.now }] := by
  unfold conversationMessages insertNewMessage
  rw [List.filter_append]
  simp

theorem history_insert (db : DB) (cid : Int) (role content : String) (mo im : Option String)
    (hs : List.Sorted tsLe db.messages) (hts : ∀ m ∈ db.messages, m.timestamp < db.now) :
    conversationHistory (insertNewMessage db cid role content mo im) cid
      = conversationHistory db cid ++
        [{ id := db.nextMsgId, conversation_id := cid, role := role, content := content,
           model_name := mo, image_url := im, timestamp := db.now }] := by
  have h1 : List.Sorted tsLe (conversationMessages db cid) := hs.filter _
  have h2 : List.Sorted tsLe (conversationMessages db cid ++
      [{ id := db.nextMsgId, conversation_id := cid, role := role, content := content,
         model_name := mo, image_url := im, timestamp := db.now }]) := by
    rw [List.Sorted, List.pairwise_append]
    refine ⟨h1, List.pairwise_singleton _ _, ?_⟩
    intro a ha b hb
    rw [List.mem_singleton] at hb
    subst hb
    exact Nat.le_of_lt (hts a (List.mem_of_mem_filter ha))
  unfold conversationHistory
  rw [filter_conv_insert, List.Sorted.insertionSort_eq h2, List.Sorted.insertionSort_eq h1]

theorem wf_insert (db : DB) (cid : Int) (role content : String) (mo im : Option String)
    (hwf : WF db) (hcid : cid < db.nextConvId) :
    WF (insertNewMessage db cid role content mo im) := by
  obtain ⟨hs, hts, hmc, hcc⟩ := hwf
  refine ⟨?_, ?_, ?_, ?_⟩
  · show List.Sorted tsLe (db.messages ++ [_])
    rw [List.Sorted, List.pairwise_append]
    refine ⟨hs, List.pairwise_singleton _ _, ?_⟩
    intro a ha b hb
    rw [List.mem_singleton] at hb
    subst hb
    exact Nat.le_of_lt (hts a ha)
  · intro m hm
    rcases List.mem_append.mp hm with h1 | h1
    · exact Nat.lt_succ_of_lt (hts m h1)
    · rw [List.mem_singleton] at h1
      subst h1
      exact Nat.lt_succ_self _
  · intro m hm
    rcases List.mem_append.mp hm with h1 | h1
    · exact hmc m h1
    · rw [List.mem_singleton] at h1
      subst h1
      exact hcid
  · exact hcc

theorem resolve_ok (req : ChatRequest) (db : DB) (conv : Conversation) (db1 : DB)
    (h : resolveConversation req db = .ok (conv, db1)) :
    conv ∈ db1.conversations ∧ db1.messages = db.messages ∧ db1.now = db.now
      ∧ db1.nextMsgId = db.nextMsgId
      ∧ (WF db → WF db1 ∧ conv.id < db1.nextConvId) := by
  unfold resolveConversation at h
  by_cases hc : intTruthy req.conversation_id
  · rw [if_pos hc] at h
    cases hf : findConversation db (req.conversation_id.getD 0) with
    | none => rw [hf] at h; cases h
    | some c =>
      rw [hf] at h
      simp only [Except.ok.injEq, Prod.mk.injEq] at h
      obtain ⟨h1, h2⟩ := h
      subst h1
      subst h2
      refine ⟨List.mem_of_find?_eq_some hf, rfl, rfl, rfl, ?_⟩
      intro hwf
      exact ⟨hwf, hwf.2.2.2 _ (List.mem_of_find?_eq_some hf)⟩
  · rw [if_neg hc] at h
    simp only [insertConversation, Except.ok.injEq, Prod.mk.injEq] at h
    obtain ⟨h1, h2⟩ := h
    subst h1
    subst h2
    refine ⟨?_, rfl, rfl, rfl, ?_⟩
    · show _ ∈ db.conversations ++ [_]
      exact List.mem_append_right _ (List.mem_singleton_self _)
    · rintro ⟨hs, hts, hmc, hcc⟩
      refine ⟨⟨hs, hts, ?_, ?_⟩, ?_⟩
      · intro m hm
        exact lt_trans (hmc m hm) (by show db.nextConvId < db.nextConvId + 1; omega)
      · intro c hc2
        rcases List.mem_append.mp hc2 with h1 | h1
        · exact lt_trans (hcc c h1) (by show db.nextConvId < db.nextConvId + 1; omega)
        · rw [List.mem_singleton] at h1
          subst h1
          show db.nextConvId < db.nextConvId + 1
          omega
      · show db.nextConvId < db.nextConvId + 1
        omega

/-! ### C7: /send rejects ephemeral mode up front -/

/-- C7: for every request to the non-streaming send operation with the
ephemeral flag set, the request is rejected with a `Validation` error whose
message names the streaming entry point `/api/chat/stream`, the durable
state is unchanged (no store write), and the outcome does not depend on the
upstream oracle (no upstream call can have been made). -/
theorem c7_send_rejects_ephemeral (req : ChatRequest) (db : DB) (up : UpstreamOutcome)
    (h : req.is_temporary = true) :
    send_message req db up = (db, .error (.validation streamHint))
    ∧ (∀ up2 : UpstreamOutcome, send_message req db up = send_message req db up2)
    ∧ List.IsInfix "/api/chat/stream".data streamHint.data := by
  refine ⟨by simp [send_message, h], fun up2 => by simp [send_message, h], by decide⟩

/-- Witness for C7 at a concrete ephemeral request. -/
theorem c7_send_rejects_ephemeral_witness :
    send_message
        { conversation_id := none, model := "m/x", message := "merhaba", image_url := none,
          is_temporary := true, conversation_title := none }
        initialDB (.success "hi")
      = (initialDB, .error (.validation streamHint)) :=
  (c7_send_rejects_ephemeral _ initialDB (.success "hi") rfl).1

/-! ### C10: /send error path keeps the user turn (non-atomic turn) -/

/-- C10: in the non-streaming send operation, when the upstream call
returns an error or an empty completion, the handler fails with a 503
`OpenRouterAPI` exception and commits no assistant message, but the user
message written in step 2 (and the conversation resolved or newly created
in step 1) remains durably stored: the error path is not atomic with
respect to the whole turn. -/
theorem c10_send_error_keeps_user_turn (req : ChatRequest) (db : DB) (up : UpstreamOutcome)
    (conv : Conversation) (db1 : DB)
    (ht : req.is_temporary = false)
    (hres : resolveConversation req db = .ok (conv, db1))
    (hup : (chat_completion up).error = true ∨ (chat_completion up).content = "") :
    (∃ emsg, (send_message req db up).2 = .error (.openRouterAPI emsg)
        ∧ (ApiError.openRouterAPI emsg).statusCode = 503)
    ∧ (send_message req db up).1.messages
        = db1.messages ++
          [{ id := db1.nextMsgId, conversation_id := conv.id, role := "user",
             content := req.message, model_name := none, image_url := req.image_url,
             timestamp := db1.now }]
    ∧ conv ∈ (send_message req db up).1.conversations
    ∧ ∀ m ∈ (send_message req db up).1.messages, m.role = "assistant" → m ∈ db.messages := by
  have hmem := (resolve_ok req db conv db1 hres).1
  have hmsgs := (resolve_ok req db conv db1 hres).2.1
  by_cases herr : (chat_completion up).error = true
  · have heval : send_message req db up
        = (insertNewMessage db1 conv.id "user" req.message none req.image_url,
           .error (.openRouterAPI (chat_completion up).message)) := by
      simp [send_message, ht, hres, herr]
    rw [heval]
    refine ⟨⟨(chat_completion up).message, rfl, rfl⟩, rfl, hmem, ?_⟩
    intro m hm hrole
    rcases List.mem_append.mp hm with h1 | h1
    · exact hmsgs ▸ h1
    · rw [List.mem_singleton] at h1
      subst h1
      simp at hrole
  · have hcon : (chat_completion up).content = "" := hup.resolve_left herr
    have heval : send_message req db up
        = (insertNewMessage db1 conv.id "user" req.message none req.image_url,
           .error (.openRouterAPI "AI\x27dan boş cevap alındı")) := by
      simp [send_message, ht, hres, herr, hcon]
    rw [heval]
    refine ⟨⟨"AI\x27dan boş cevap alındı", rfl, rfl⟩, rfl, hmem, ?_⟩
    intro m hm hrole
    rcases List.mem_append.mp hm with h1 | h1
    · exact hmsgs ▸ h1
    · rw [List.mem_singleton] at h1
      subst h1
      simp at hrole

/-- Witness for C10: an HTTP 429 on a fresh conversation. -/
theorem c10_send_error_keeps_user_turn_witness :
    (∃ emsg,
        (send_message
            { conversation_id := none, model := "m/x", message := "selam", image_url := none,
              is_temporary := false, conversation_title := none }
            initialDB (.httpStatusError 429)).2
          = .error (.openRouterAPI emsg)
        ∧ (ApiError.openRouterAPI emsg).statusCode = 503)
    ∧ (send_message
          { conversation_id := none, model := "m/x", message := "selam", image_url := none,
            is_temporary := false, conversation_title := none }
          initialDB (.httpStatusError 429)).1.messages
        = (insertConversation initialDB "Yeni Sohbet" "m/x").2.messages ++
          [{ id := 1, conversation_id := 1, role := "user",
             content := "selam", model_name := none, image_url := none, timestamp := 0 }]
    ∧ (insertConversation initialDB "Yeni Sohbet" "m/x").1
        ∈ (send_message
            { conversation_id := none, model := "m/x", message := "selam", image_url := none,
              is_temporary := false, conversation_title := none }
            initialDB (.httpStatusError 429)).1.conversations
    ∧ ∀ m ∈ (send_message
          { conversation_id := none, model := "m/x", message := "selam", image_url := none,
            is_temporary := false, conversation_title := none }
          initialDB (.httpStatusError 429)).1.messages,
        m.role = "assistant" → m ∈ initialDB.messages :=
  c10_send_error_keeps_user_turn _ initialDB (.httpStatusError 429)
    (insertConversation initialDB "Yeni Sohbet" "m/x").1
    (insertConversation initialDB "Yeni Sohbet" "m/x").2
    rfl (by rfl) (Or.inl rfl)

/-! ### C8: the streaming commit can store an empty assistant message -/

def c8req : ChatRequest :=
  { conversation_id := none, model := "m/x", message := "hi", image_url := none,
    is_temporary := false, conversation_title := none }

def c8st : AppState := { db := initialDB, temp := initialTempStore }

/-- C8, evaluated at the failing input: a durable streamed turn whose
upstream stream ends without yielding any fragment (`.success []`) makes
`generate_stream` commit an assistant `Message` whose `content` is the
empty string (with the model identifier set), violating the non-empty
content invariant that the message model documents and that the
non-streaming handler enforces with its empty-response guard. -/
theorem c8_empty_stream_commits_empty_assistant :
    ((send_message_stream c8req c8st (.success [])).1.db.messages.map
        (fun m => (m.role, m.content, m.model_name)))
      = [("user", "hi", none), ("assistant", "", some "m/x")] := by
  rfl

/-! ### C9: ephemeral routing of the streaming endpoint -/

/-- C9: in the streaming turn operation with the ephemeral flag set, the
durable store is neither written (it is returned unchanged) nor read (the
outcome and the resulting ephemeral store do not depend on it); a supplied
positive conversation id is ignored — a fresh ephemeral session is created
at the current (negative) counter and both the user turn and the assistant
turn are recorded under it; only a supplied negative id continues that
existing ephemeral session, appending both turns to it. -/
theorem c9_ephemeral_routing (req : ChatRequest) (st : AppState) (up : StreamOutcome)
    (ht : req.is_temporary = true) :
    ((send_message_stream req st up).1.db = st.db)
    ∧ (∀ db2 : DB,
        (send_message_stream req { db := db2, temp := st.temp } up).1.temp
          = (send_message_stream req st up).1.temp
        ∧ (send_message_stream req { db := db2, temp := st.temp } up).2
          = (send_message_stream req st up).2)
    ∧ (∀ cid : Int, req.conversation_id = some cid → 0 < cid →
        (send_message_stream req st up).2
          = .ok (chat_completion_stream up, st.temp.nextSessionId)
        ∧ (get_session_messages (send_message_stream req st up).1.temp
              st.temp.nextSessionId).map (fun t => (t.role, t.content))
          = [("user", req.message),
             ("assistant", String.join (chat_completion_stream up))])
    ∧ (∀ cid : Int, req.conversation_id = some cid → cid < 0 →
        (send_message_stream req st up).2 = .ok (chat_completion_stream up, cid)
        ∧ (get_session_messages (send_message_stream req st up).1.temp cid).map
              (fun t => (t.role, t.content))
          = (get_session_messages st.temp cid).map (fun t => (t.role, t.content))
            ++ [("user", req.message),
                ("assistant", String.join (chat_completion_stream up))]) := by
  refine ⟨?_, ?_, ?_, ?_⟩
  · simp [send_message_stream, streamSetup, generate_stream, commitAssistant, ht]
  · intro db2
    constructor <;> simp [send_message_stream, streamSetup, generate_stream, commitAssistant, ht]
  · intro cid hcid hpos
    have hne : (cid != 0) = true := by
      simp only [bne_iff_ne, ne_eq]
      omega
    have hlt : decide (cid < 0) = false := by
      simp only [decide_eq_false_iff_not]
      omega
    have hroute : tempRoute req st.temp = create_temporary_session st.temp := by
      simp [tempRoute, hcid, intTruthy, hne, hlt]
    constructor
    · simp [send_message_stream, streamSetup, generate_stream, commitAssistant, ht, hroute,
        create_temporary_session]
    · simp only [send_message_stream, streamSetup, ht, if_pos, generate_stream,
        commitAssistant, hroute]
      rw [show st.temp.nextSessionId = (create_temporary_session st.temp).1 from rfl]
      rw [get_add, get_add, get_create]
      simp
  · intro cid hcid hneg
    have hne : (cid != 0) = true := by
      simp only [bne_iff_ne, ne_eq]
      omega
    have hlt : decide (cid < 0) = true := by
      simp only [decide_eq_true_eq]
      omega
    have hroute : tempRoute req st.temp = (cid, st.temp) := by
      simp [tempRoute, hcid, intTruthy, hne, hlt]
    constructor
    · simp [send_message_stream, streamSetup, generate_stream, commitAssistant, ht, hroute]
    · simp only [send_message_stream, streamSetup, ht, if_pos, generate_stream,
        commitAssistant, hroute]
      rw [get_add, get_add]
      simp

def c9req : ChatRequest :=
  { conversation_id := some 7, model := "m/x", message := "selam", image_url := none,
    is_temporary := true, conversation_title := none }

def c9st : AppState := { db := initialDB, temp := initialTempStore }

/-- Witness for C9: a positive id (7) with the ephemeral flag set routes to
the fresh session -1 and never touches the durable store. -/
theorem c9_ephemeral_routing_witness :
    ((send_message_stream c9req c9st (.success ["a", "b"])).1.db = c9st.db)
    ∧ (send_message_stream c9req c9st (.success ["a", "b"])).2
        = .ok (chat_completion_stream (.success ["a", "b"]), c9st.temp.nextSessionId)
    ∧ (get_session_messages (send_message_stream c9req c9st (.success ["a", "b"])).1.temp
          c9st.temp.nextSessionId).map (fun t => (t.role, t.content))
        = [("user", "selam"),
           ("assistant", String.join (chat_completion_stream (.success ["a", "b"])))] :=
  ⟨(c9_ephemeral_routing c9req c9st (.success ["a", "b"]) rfl).1,
   ((c9_ephemeral_routing c9req c9st (.success ["a", "b"]) rfl).2.2.1 7 rfl (by decide)).1,
   ((c9_ephemeral_routing c9req c9st (.success ["a", "b"]) rfl).2.2.1 7 rfl (by decide)).2⟩

/-! ### C1: a failed stream yields one error fragment — and commits it -/

/-- What a caller sees when re-reading the store a turn was routed to:
the (role, content) projection of the session history (ephemeral mode) or
of the durable conversation history. -/
def storeRead (req : ChatRequest) (st : AppState) (sid : Int) : List (String × String) :=
  if req.is_temporary then
    (get_session_messages st.temp sid).map (fun t => (t.role, t.content))
  else
    (conversationHistory st.db sid).map (fun m => (m.role, m.content))

def c1xreq : ChatRequest :=
  { conversation_id := none, model := "m/x", message := "merhaba", image_url := none,
    is_temporary := true, conversation_title := none }

def c1xst : AppState := { db := initialDB, temp := initialTempStore }

/-- Counterexample to C1 as stated: an HTTP 429 raised at stream start of an
ephemeral turn does yield exactly one explanatory fragment, but an assistant
turn containing that fragment IS committed to the session — the post-turn
read shows `["user", "assistant"]`, with the assistant content equal to the
error fragment, contradicting "no assistant turn is committed to either
store". -/
theorem c1_counterexample :
    (send_message_stream c1xreq c1xst (.failAfter [] (.httpStatus 429))).2
      = .ok ([streamErrorMessage (.httpStatus 429)], -1)
    ∧ ((get_session_messages
          (send_message_stream c1xreq c1xst (.failAfter [] (.httpStatus 429))).1.temp (-1)).map
        (fun t => (t.role, t.content)))
      = [("user", "merhaba"), ("assistant", streamErrorMessage (.httpStatus 429))] := by
  exact ⟨rfl, rfl⟩

/-- C1 amended: for every streaming turn whose upstream call fails with a
transport or HTTP error before yielding any fragment (e.g. HTTP 429), the
caller's stream yields exactly one human-readable explanatory fragment and
terminates, the user turn recorded at turn start remains present on a
subsequent read — but, contrary to the original claim, an assistant turn
whose content is that error fragment IS committed to the same store. -/
theorem c1_amended (req : ChatRequest) (st st1 : AppState) (sid : Int)
    (hist : List ProviderMessage) (e : StreamError)
    (hwf : WF st.db)
    (hset : streamSetup req st = .ok (st1, sid, hist)) :
    (send_message_stream req st (.failAfter [] e)).2
      = .ok ([streamErrorMessage e], sid)
    ∧ ∃ pre : List (String × String),
        storeRead req st1 sid = pre ++ [("user", req.message)]
        ∧ storeRead req (send_message_stream req st (.failAfter [] e)).1 sid
            = pre ++ [("user", req.message), ("assistant", streamErrorMessage e)] := by
  have hchunks : chat_completion_stream (.failAfter [] e) = [streamErrorMessage e] := rfl
  have hjoin : String.join [streamErrorMessage e] = streamErrorMessage e := rfl
  have heval : send_message_stream req st (.failAfter [] e)
      = (commitAssistant req st1 sid (streamErrorMessage e),
         .ok ([streamErrorMessage e], sid)) := by
    simp [send_message_stream, hset, generate_stream, hchunks, hjoin]
  rw [heval]
  refine ⟨rfl, ?_⟩
  by_cases htemp : req.is_temporary = true
  · -- ephemeral mode: both turns are appends on the routed session
    simp only [streamSetup, htemp, if_pos, Except.ok.injEq, Prod.mk.injEq] at hset
    obtain ⟨hst1, hsid, _⟩ := hset
    refine ⟨(get_session_messages (tempRoute req st.temp).2 sid).map
        (fun t => (t.role, t.content)), ?_, ?_⟩
    · rw [storeRead, if_pos htemp, ← hst1]
      subst hsid
      rw [get_add]
      simp
    · rw [commitAssistant, if_pos htemp, storeRead, if_pos htemp, ← hst1]
      subst hsid
      rw [get_add, get_add]
      simp
  · -- durable mode: both turns are inserts on the resolved conversation
    simp only [streamSetup, htemp, if_neg, Bool.not_eq_true] at hset
    cases hres : resolveConversation req st.db with
    | error err => rw [hres] at hset; cases hset
    | ok p =>
      obtain ⟨conv, db1⟩ := p
      rw [hres] at hset
      simp only [Except.ok.injEq, Prod.mk.injEq] at hset
      obtain ⟨hst1, hsid, _⟩ := hset
      subst hst1
      subst hsid
      have hr := resolve_ok req st.db conv db1 hres
      have hwf1 : WF db1 := (hr.2.2.2.2 hwf).1
      have hcid : conv.id < db1.nextConvId := (hr.2.2.2.2 hwf).2
      have hwf2 : WF (insertNewMessage db1 conv.id "user" req.message none req.image_url) :=
        wf_insert db1 conv.id "user" req.message none req.image_url hwf1 hcid
      refine ⟨(conversationHistory db1 conv.id).map (fun m => (m.role, m.content)), ?_, ?_⟩
      · rw [storeRead, if_neg (by simp [htemp])]
        show List.map (fun m => (m.role, m.content))
            (conversationHistory
              (insertNewMessage db1 conv.id "user" req.message none req.image_url) conv.id) = _
        rw [history_insert db1 conv.id "user" req.message none req.image_url hwf1.1 hwf1.2.1]
        simp
      · rw [commitAssistant, if_neg (by simp [htemp]), storeRead, if_neg (by simp [htemp])]
        show List.map (fun m => (m.role, m.content))
            (conversationHistory
              (insertNewMessage
                (insertNewMessage db1 conv.id "user" req.message none req.image_url)
                conv.id "assistant" (streamErrorMessage e) (some req.model) none) conv.id) = _
        rw [history_insert _ conv.id "assistant" (streamErrorMessage e) (some req.model) none
              hwf2.1 hwf2.2.1]
        rw [history_insert db1 conv.id "user" req.message none req.image_url hwf1.1 hwf1.2.1]
        simp

def c1wreq : ChatRequest :=
  { conversation_id := none, model := "m/x", message := "hi", image_url := none,
    is_temporary := false, conversation_title := none }

def c1wst : AppState := { db := initialDB, temp := initialTempStore }

def c1wst1 : AppState :=
  { db := { conversations := [{ id := 1, title := "Yeni Sohbet", model_name := "m/x" }],
            messages := [{ id := 1, conversation_id := 1, role := "user", content := "hi",
                           model_name := none, image_url := none, timestamp := 0 }],
            nextConvId := 2, nextMsgId := 2, now := 1 },
    temp := initialTempStore }

/-- Witness for the amended C1: a connection error on a fresh durable
streamed turn. -/
theorem c1_amended_witness :
    (send_message_stream c1wreq c1wst (.failAfter [] (.transport "boom"))).2
      = .ok ([streamErrorMessage (.transport "boom")], 1)
    ∧ ∃ pre : List (String × String),
        storeRead c1wreq c1wst1 1 = pre ++ [("user", "hi")]
        ∧ storeRead c1wreq
              (send_message_stream c1wreq c1wst (.failAfter [] (.transport "boom"))).1 1
            = pre ++ [("user", "hi"), ("assistant", streamErrorMessage (.transport "boom"))] :=
  c1_amended c1wreq c1wst c1wst1 1
    (assembleHistoryDB (conversationHistory c1wst1.db 1)) (.transport "boom")
    wf_initialDB (by rfl)


/-! ### Edit/truncate lemmas (for C2 and C3) -/

/-- The content overwrite the edit applies to the matching row. -/
def editUpd (mid : Nat) (content : String) (m : Message) : Message :=
  if m.id == mid then { m with content := content } else m

/-- The deletion predicate of the edit: same conversation, strictly greater
ordering key. -/
def editDropped (M : Message) (m : Message) : Bool :=
  m.conversation_id == M.conversation_id && decide (M.timestamp < m.timestamp)

/-- The message table after a successful edit. -/
def editResult (db : DB) (mid : Nat) (content : String) (M : Message) : List Message :=
  (db.messages.map (editUpd mid content)).filter (fun m => !editDropped M m)

theorem editUpd_fields (mid : Nat) (content : String) (m : Message) :
    (editUpd mid content m).timestamp = m.timestamp
    ∧ (editUpd mid content m).conversation_id = m.conversation_id
    ∧ (editUpd mid content m).id = m.id
    ∧ (editUpd mid content m).role = m.role := by
  unfold editUpd
  by_cases h : m.id == mid <;> simp [h]

/-- Evaluation of the successful edit path. -/
theorem edit_success_eval (db : DB) (mid : Nat) (content : String) (M : Message)
    (hfind : findMessage db mid = some M) (hrole : M.role = "user") :
    edit_message db mid content
      = ({ db with messages := editResult db mid content M },
         .ok { id := mid, content := content, conversation_id := M.conversation_id,
               deleted_count := (db.messages.filter (editDropped M)).length,
               timestamp := M.timestamp }) := by
  have hr : (M.role != "user") = false := by rw [hrole]; rfl
  unfold edit_message
  rw [hfind]
  dsimp only
  rw [hr]
  rfl

/-- The conversation rows surviving an edit are exactly the rows within the
cutoff, with the content update mapped over them. -/
theorem edit_filter_eq (M : Message) (mid : Nat) (content : String) (l : List Message) :
    ((l.map (editUpd mid content)).filter (fun m => !editDropped M m)).filter
      (fun m => m.conversation_id == M.conversation_id)
    = ((l.filter (fun m => m.conversation_id == M.conversation_id)).filter
        (fun m => decide (m.timestamp ≤ M.timestamp))).map (editUpd mid content) := by
  induction l with
  | nil => rfl
  | cons x xs ih =>
    have hf := editUpd_fields mid content x
    rcases Nat.lt_or_ge M.timestamp x.timestamp with h2 | h2
    · have h2n : ¬x.timestamp ≤ M.timestamp := Nat.not_le.mpr h2
      have hd : editDropped M (editUpd mid content x)
          = (x.conversation_id == M.conversation_id) := by
        unfold editDropped
        rw [hf.1, hf.2.1]
        simp [h2]
      by_cases h1 : x.conversation_id = M.conversation_id
      · simp only [List.map_cons, List.filter_cons]
        rw [if_neg (by rw [hd]; simp [h1])]
        rw [if_pos (by simp [h1])]
        rw [List.filter_cons, if_neg (by simp [h2n])]
        exact ih
      · simp only [List.map_cons, List.filter_cons]
        rw [if_pos (by rw [hd]; simp [h1])]
        rw [List.filter_cons, if_neg (by simp [hf.2.1, h1])]
        rw [if_neg (by simp [h1])]
        exact ih
    · have h2y : x.timestamp ≤ M.timestamp := h2
      have hd : editDropped M (editUpd mid content x) = false := by
        unfold editDropped
        have hdec : decide (M.timestamp < x.timestamp) = false :=
          decide_eq_false (Nat.not_lt.mpr h2)
        rw [hf.1, hf.2.1, hdec, Bool.and_false]
      by_cases h1 : x.conversation_id = M.conversation_id
      · simp only [List.map_cons, List.filter_cons]
        rw [if_pos (by rw [hd]; simp)]
        rw [List.filter_cons, if_pos (by simp [hf.2.1, h1])]
        rw [if_pos (by simp [h1]), List.filter_cons, if_pos (by simp [h2y]), List.map_cons]
        rw [ih]
      · simp only [List.map_cons, List.filter_cons]
        rw [if_pos (by rw [hd]; simp)]
        rw [List.filter_cons, if_neg (by simp [hf.2.1, h1])]
        rw [if_neg (by simp [h1])]
        exact ih

/-- Filtering by a predicate unaffected by the content update commutes with
mapping the update. -/
theorem filter_map_upd (l : List Message) (mid : Nat) (content : String) (p : Message → Bool)
    (hp : ∀ m, p (editUpd mid content m) = p m) :
    (l.map (editUpd mid content)).filter p
      = (l.filter p).map (editUpd mid content) := by
  induction l with
  | nil => rfl
  | cons x xs ih =>
    simp only [List.map_cons, List.filter_cons, hp x]
    by_cases h : p x = true
    · simp [h, ih]
    · simp [h, ih]

theorem length_filter_not_add (l : List Message) (p : Message → Bool) :
    (l.filter (fun m => !p m)).length + (l.filter p).length = l.length := by
  induction l with
  | nil => rfl
  | cons x xs ih =>
    by_cases h : p x = true <;> simp [h, List.filter_cons] <;> omega

/-! ### C2: edit then read -/

def c2xM1 : Message :=
  { id := 1, conversation_id := 1, role := "user", content := "a",
    model_name := none, image_url := none, timestamp := 5 }

def c2xM2 : Message :=
  { id := 2, conversation_id := 1, role := "user", content := "b",
    model_name := none, image_url := none, timestamp := 5 }

def c2xdb : DB :=
  { conversations := [{ id := 1, title := "t", model_name := "m/x" }],
    messages := [c2xM1, c2xM2], nextConvId := 2, nextMsgId := 3, now := 6 }

/-- Counterexample to C2 as stated: in the pre-edit history `[c2xM1, c2xM2]`
the edited message `c2xM1` has index 0, and a later message shares its
ordering key (both timestamps are 5); the edit succeeds but deletes nothing
(only strictly greater keys are deleted), so the post-edit history has
length 2, not (index of M) + 1 = 1. -/
theorem c2_counterexample :
    conversationHistory c2xdb 1 = [c2xM1, c2xM2]
    ∧ (edit_message c2xdb 1 "yeni").2
        = .ok { id := 1, content := "yeni", conversation_id := 1, deleted_count := 0,
                timestamp := 5 }
    ∧ (conversationHistory (edit_message c2xdb 1 "yeni").1 1).length = 2
    ∧ (conversationHistory (edit_message c2xdb 1 "yeni").1 1).length ≠ 0 + 1 := by
  refine ⟨rfl, rfl, rfl, by decide⟩

/-- C2 amended: editing message M and then reading the conversation yields a
history whose last element's ordering key is ≤ M's key — and whose length
equals (index of M in the pre-edit order) + 1 provided every message after
M in the pre-edit order has a strictly greater timestamp.  (The original
claim's tie case fails: messages sharing M's key are not deleted — see the
counterexample.) -/
theorem c2_amended (db : DB) (M : Message) (A B : List Message) (content : String)
    (hfind : findMessage db M.id = some M)
    (hrole : M.role = "user")
    (hhist : conversationHistory db M.conversation_id = A ++ M :: B)
    (hB : ∀ b ∈ B, M.timestamp < b.timestamp) :
    ∃ resp : EditResponse,
      (edit_message db M.id content).2 = .ok resp
      ∧ (conversationHistory (edit_message db M.id content).1 M.conversation_id).length
          = A.length + 1
      ∧ ∀ L : Message,
          (conversationHistory (edit_message db M.id content).1 M.conversation_id).getLast?
            = some L → L.timestamp ≤ M.timestamp := by
  have hsorted : List.Sorted tsLe (A ++ M :: B) := by
    rw [← hhist]
    exact List.sorted_insertionSort tsLe (conversationMessages db M.conversation_id)
  have hA : ∀ a ∈ A, a.timestamp ≤ M.timestamp := by
    intro a ha
    exact (List.pairwise_append.mp hsorted).2.2 a ha M (List.mem_cons_self M B)
  rw [edit_success_eval db M.id content M hfind hrole]
  refine ⟨_, rfl, ?_, ?_⟩
  · show (List.insertionSort tsLe (((db.messages.map (editUpd M.id content)).filter
        (fun m => !editDropped M m)).filter
        (fun m => m.conversation_id == M.conversation_id))).length = A.length + 1
    rw [List.length_insertionSort, edit_filter_eq M M.id content db.messages, List.length_map,
      ← List.countP_eq_length_filter]
    have hperm : List.countP (fun m => decide (m.timestamp ≤ M.timestamp))
          (db.messages.filter (fun m => m.conversation_id == M.conversation_id))
        = List.countP (fun m => decide (m.timestamp ≤ M.timestamp)) (A ++ M :: B) := by
      rw [← hhist]
      exact (List.Perm.countP_eq _
        (List.perm_insertionSort tsLe (conversationMessages db M.conversation_id))).symm
    rw [hperm, List.countP_append, List.countP_cons]
    have hcA : List.countP (fun m => decide (m.timestamp ≤ M.timestamp)) A = A.length :=
      List.countP_eq_length.mpr (fun a ha => by simpa using hA a ha)
    have hcB : List.countP (fun m => decide (m.timestamp ≤ M.timestamp)) B = 0 :=
      List.countP_eq_zero.mpr (fun b hb => by
        have := hB b hb
        simp only [decide_eq_true_eq]
        omega)
    have hcM : (decide (M.timestamp ≤ M.timestamp)) = true := by simp
    rw [hcA, hcB, hcM]
    simp
  · intro L hL
    have hmem : L ∈ ((db.messages.filter
        (fun m => m.conversation_id == M.conversation_id)).filter
          (fun m => decide (m.timestamp ≤ M.timestamp))).map (editUpd M.id content) := by
      rw [← edit_filter_eq M M.id content db.messages]
      exact (List.mem_insertionSort tsLe).mp (mem_of_getLast?_eq_some hL)
    obtain ⟨m0, hm0f, hLm⟩ := List.mem_map.mp hmem
    have h2 := (List.mem_filter.mp hm0f).2
    have h3 : m0.timestamp ≤ M.timestamp := by simpa using h2
    have h4 : L.timestamp = m0.timestamp := by
      rw [← hLm]
      exact (editUpd_fields M.id content m0).1
    omega

def c2wM1 : Message :=
  { id := 1, conversation_id := 1, role := "user", content := "a",
    model_name := none, image_url := none, timestamp := 5 }

def c2wM2 : Message :=
  { id := 2, conversation_id := 1, role := "assistant", content := "b",
    model_name := some "m/x", image_url := none, timestamp := 7 }

def c2wdb : DB :=
  { conversations := [{ id := 1, title := "t", model_name := "m/x" }],
    messages := [c2wM1, c2wM2], nextConvId := 2, nextMsgId := 3, now := 8 }

/-- Witness for the amended C2: editing the first user turn (index 0)
truncates the strictly later assistant turn, leaving a history of length 1
headed by a key ≤ 5. -/
theorem c2_amended_witness :
    ∃ resp : EditResponse,
      (edit_message c2wdb 1 "yeni").2 = .ok resp
      ∧ (conversationHistory (edit_message c2wdb 1 "yeni").1 1).length = 0 + 1
      ∧ ∀ L : Message,
          (conversationHistory (edit_message c2wdb 1 "yeni").1 1).getLast? = some L →
          L.timestamp ≤ 5 :=
  c2_amended c2wdb c2wM1 [] [c2wM2] "yeni" (by rfl) rfl (by rfl) (by decide)

/-! ### C3: the edit contract -/

/-- C3: the edit operation fails with `MessageNotFound` when no message has
the identifier; fails with a `Validation` error, leaving the store
unchanged, when the found message's role is not "user"; and on success
overwrites the content, deletes exactly the messages of the same
conversation with strictly greater timestamps (every survivor is within
the cutoff; every within-cutoff or other-conversation row survives, with
only the edited row's content changed; no row is invented), and reports
the number deleted. -/
theorem c3_edit_contract :
    (∀ (db : DB) (mid : Nat) (content : String),
        findMessage db mid = none →
        edit_message db mid content = (db, .error (.messageNotFound mid)))
    ∧ (∀ (db : DB) (mid : Nat) (content : String) (M : Message),
        findMessage db mid = some M → M.role ≠ "user" →
        edit_message db mid content = (db, .error (.validation editValidationMsg)))
    ∧ (∀ (db : DB) (mid : Nat) (content : String) (M : Message),
        findMessage db mid = some M → M.role = "user" →
        ∃ resp : EditResponse,
          (edit_message db mid content).2 = .ok resp
          ∧ ({ M with content := content } : Message) ∈ (edit_message db mid content).1.messages
          ∧ (∀ m ∈ (edit_message db mid content).1.messages,
              m.conversation_id = M.conversation_id → m.timestamp ≤ M.timestamp)
          ∧ (∀ m ∈ (edit_message db mid content).1.messages, ∃ m0 ∈ db.messages,
              m0.id = m.id ∧ m0.conversation_id = m.conversation_id
                ∧ m0.timestamp = m.timestamp ∧ m0.role = m.role)
          ∧ (∀ m ∈ db.messages,
              m.conversation_id ≠ M.conversation_id ∨ m.timestamp ≤ M.timestamp →
              editUpd mid content m ∈ (edit_message db mid content).1.messages)
          ∧ resp.deleted_count = (db.messages.filter (editDropped M)).length
          ∧ resp.content = content ∧ resp.conversation_id = M.conversation_id
          ∧ resp.id = mid ∧ resp.timestamp = M.timestamp
          ∧ (edit_message db mid content).1.messages.length + resp.deleted_count
              = db.messages.length) := by
  refine ⟨?_, ?_, ?_⟩
  · intro db mid content h
    unfold edit_message
    rw [h]
  · intro db mid content M hfind hrole
    have hr : (M.role != "user") = true := bne_iff_ne.mpr hrole
    unfold edit_message
    rw [hfind]
    dsimp only
    rw [hr]
    rfl
  · intro db mid content M hfind hrole
    have hfind2 : db.messages.find? (fun m => m.id == mid) = some M := hfind
    have hMid : (M.id == mid) = true :=
      @List.find?_some Message (fun m => m.id == mid) M db.messages hfind2
    have hMmem : M ∈ db.messages := List.mem_of_find?_eq_some hfind2
    have hkeepupd : ∀ m : Message,
        (!editDropped M (editUpd mid content m)) = (!editDropped M m) := by
      intro m
      unfold editDropped
      rw [(editUpd_fields mid content m).1, (editUpd_fields mid content m).2.1]
    rw [edit_success_eval db mid content M hfind hrole]
    refine ⟨_, rfl, ?_, ?_, ?_, ?_, rfl, rfl, rfl, rfl, rfl, ?_⟩
    · show ({ M with content := content } : Message) ∈ editResult db mid content M
      apply List.mem_filter.mpr
      constructor
      · have hM : editUpd mid content M = { M with content := content } := by
          unfold editUpd
          rw [if_pos hMid]
        rw [← hM]
        exact List.mem_map_of_mem _ hMmem
      · simp [editDropped]
    · show ∀ m ∈ editResult db mid content M,
        m.conversation_id = M.conversation_id → m.timestamp ≤ M.timestamp
      intro m hm hconv
      have h2 := (List.mem_filter.mp hm).2
      have h3 : editDropped M m = false := by
        cases hcd : editDropped M m
        · rfl
        · rw [hcd] at h2
          cases h2
      unfold editDropped at h3
      have hb : (m.conversation_id == M.conversation_id) = true := beq_iff_eq.mpr hconv
      rw [hb, Bool.true_and] at h3
      have h4 := of_decide_eq_false h3
      omega
    · show ∀ m ∈ editResult db mid content M, ∃ m0 ∈ db.messages,
        m0.id = m.id ∧ m0.conversation_id = m.conversation_id
          ∧ m0.timestamp = m.timestamp ∧ m0.role = m.role
      intro m hm
      obtain ⟨m0, hm0, hup⟩ := List.mem_map.mp (List.mem_filter.mp hm).1
      refine ⟨m0, hm0, ?_, ?_, ?_, ?_⟩
      · rw [← hup]
        exact ((editUpd_fields mid content m0).2.2.1).symm
      · rw [← hup]
        exact ((editUpd_fields mid content m0).2.1).symm
      · rw [← hup]
        exact ((editUpd_fields mid content m0).1).symm
      · rw [← hup]
        exact ((editUpd_fields mid content m0).2.2.2).symm
    · show ∀ m ∈ db.messages,
        m.conversation_id ≠ M.conversation_id ∨ m.timestamp ≤ M.timestamp →
        editUpd mid content m ∈ editResult db mid content M
      intro m hm hkeep
      apply List.mem_filter.mpr
      refine ⟨List.mem_map_of_mem _ hm, ?_⟩
      rw [hkeepupd m]
      unfold editDropped
      rcases hkeep with h | h
      · have hb : (m.conversation_id == M.conversation_id) = false := by
          simp [h]
        rw [hb, Bool.false_and]
        rfl
      · have hdec : decide (M.timestamp < m.timestamp) = false :=
          decide_eq_false (by omega)
        rw [hdec, Bool.and_false]
        rfl
    · show (editResult db mid content M).length
          + (db.messages.filter (editDropped M)).length = db.messages.length
      unfold editResult
      rw [filter_map_upd db.messages mid content _ hkeepupd, List.length_map]
      exact length_filter_not_add db.messages (editDropped M)

def c3M1 : Message :=
  { id := 1, conversation_id := 1, role := "user", content := "soru",
    model_name := none, image_url := none, timestamp := 0 }

def c3M2 : Message :=
  { id := 2, conversation_id := 1, role := "assistant", content := "cevap",
    model_name := some "m/x", image_url := none, timestamp := 1 }

def c3M3 : Message :=
  { id := 3, conversation_id := 1, role := "user", content := "soru2",
    model_name := none, image_url := none, timestamp := 2 }

def c3db : DB :=
  { conversations := [{ id := 1, title := "t", model_name := "m/x" }],
    messages := [c3M1, c3M2, c3M3], nextConvId := 2, nextMsgId := 4, now := 3 }

/-- Witness for C3: a missing id, an assistant-role edit, and a successful
truncating edit of the first user turn. -/
theorem c3_edit_contract_witness :
    edit_message c3db 99 "x" = (c3db, .error (.messageNotFound 99))
    ∧ edit_message c3db 2 "x" = (c3db, .error (.validation editValidationMsg))
    ∧ ∃ resp : EditResponse,
        (edit_message c3db 1 "x").2 = .ok resp
        ∧ ({ c3M1 with content := "x" } : Message) ∈ (edit_message c3db 1 "x").1.messages
        ∧ (∀ m ∈ (edit_message c3db 1 "x").1.messages,
            m.conversation_id = c3M1.conversation_id → m.timestamp ≤ c3M1.timestamp)
        ∧ (∀ m ∈ (edit_message c3db 1 "x").1.messages, ∃ m0 ∈ c3db.messages,
            m0.id = m.id ∧ m0.conversation_id = m.conversation_id
              ∧ m0.timestamp = m.timestamp ∧ m0.role = m.role)
        ∧ (∀ m ∈ c3db.messages,
            m.conversation_id ≠ c3M1.conversation_id ∨ m.timestamp ≤ c3M1.timestamp →
            editUpd 1 "x" m ∈ (edit_message c3db 1 "x").1.messages)
        ∧ resp.deleted_count = (c3db.messages.filter (editDropped c3M1)).length
        ∧ resp.content = "x" ∧ resp.conversation_id = c3M1.conversation_id
        ∧ resp.id = 1 ∧ resp.timestamp = c3M1.timestamp
        ∧ (edit_message c3db 1 "x").1.messages.length + resp.deleted_count
            = c3db.messages.length :=
  ⟨c3_edit_contract.1 c3db 99 "x" rfl,
   c3_edit_contract.2.1 c3db 2 "x" c3M2 rfl (by decide),
   c3_edit_contract.2.2 c3db 1 "x" c3M1 rfl rfl⟩

end ChatApp
